import Mathlib

/-!
Verification of the echosonar game server core (src/server.js).

Shallow embedding conventions:
- JS numbers holding coordinates, velocities and angles are modelled over
  an arbitrary linearly ordered commutative ring K: every operation the
  verified code performs on them (addition, subtraction, multiplication,
  comparison, min/max) lives there, so each theorem holds in particular
  at K = the reals, the idealisation of JS numbers.  Concrete witnesses
  instantiate K with the integers, where the kernel can evaluate.
- Millisecond timestamps and the integer-valued counters (health, kills,
  score, deaths) are plain integers.
- The collision test on line 317 of server.js compares
  Math.sqrt(dx*dx + dy*dy) < 15; since both sides are nonnegative this is
  equivalent to dx*dx + dy*dy < 15*15, which is the form used here.
- Math.floor(t / 1000) on a difference of integer timestamps is modelled
  as Int.fdiv t 1000 (floor division).
- Math.random() driven values (bot respawn positions) enter as an explicit
  supply function together with a counter that is threaded through.
- Math.PI and Math.cos / Math.sin enter as explicit parameters of the
  functions that use them; theorems therefore hold for every value of
  those parameters, in particular for the real constants.
- The two maps players and bots iterate in insertion order; both are
  modelled as lists carrying an isBot flag, concatenated in the order
  [...players.values(), ...bots.values()] where the source does so.
- Every socket emission is recorded as an Emit value tagging the payload
  with its audience: io.emit is allSessions, socket.emit is senderOnly,
  socket.broadcast.emit is othersOnly.
-/

namespace EchoSonar

/- gameConfig, src/server.js lines 20-43 (only the fields the verified
   functions read).  The integer-valued tunables first. -/

def pingCooldownMs : Int := 1000
def minBots : Nat := 5
def maxBots : Nat := 10
def maxHealth : Int := 100
def bulletDamage : Int := 10
def bulletLifetime : Int := 2000
def shootCooldownMs : Int := 200

section Model

variable {K : Type} [LinearOrderedCommRing K]

def worldWidth : K := 2000
def worldHeight : K := 2000
def bulletSpeed : K := 10

/-- One entity of the unified player/bot shape (server.js lines 61-80 for
bots, 396-412 for players).  Fields irrelevant to the verified claims
(color) are omitted. -/
structure Entity (K : Type) where
  id : Nat
  name : String
  x : K
  y : K
  alive : Bool
  joinTime : Int
  score : Int
  kills : Int
  deaths : Int
  health : Int
  lastShoot : Int
  lastPing : Int
  isBot : Bool
deriving DecidableEq

/-- One projectile (server.js lines 173-184 / 500-511). -/
structure Bullet (K : Type) where
  id : Nat
  ownerId : Nat
  ownerName : String
  x : K
  y : K
  vx : K
  vy : K
  damage : Int
  createdAt : Int
deriving DecidableEq

/-- Payload of a socket emission relevant to the claims. -/
inductive Event (K : Type) where
  | bulletRemoved (bulletId : Nat)
  | playerHit (playerId : Nat) (damage : Int) (health : Int) (shooterId : Nat)
  | playerDied (id : Nat) (eliminatedBy : Nat) (finalScore : Int)
      (kills : Int) (deaths : Int)
  | pingCooldownNotice (remaining : Int)
  | pingEmitted (playerId : Nat) (x : K) (y : K) (timestamp : Int)
  | playerMoved (id : Nat) (x : K) (y : K)
  | bulletFired (b : Bullet K)
  | playerNameUpdated (id : Nat) (name : String)
  | chatMessage (playerId : Nat) (message : String) (timestamp : Int)
  | playerLeft (id : Nat) (finalScore : Int)
deriving DecidableEq

/-- Which sessions receive an emission: io.emit reaches every session,
socket.emit only the sender, socket.broadcast.emit everyone else. -/
inductive Audience where
  | allSessions
  | senderOnly
  | othersOnly
deriving DecidableEq

/-- A recorded socket emission. -/
structure Emit (K : Type) where
  aud : Audience
  ev : Event K
deriving DecidableEq

/-- players.get(socket.id): humans live in the players map, so the lookup
only sees entities with isBot = false. -/
def getPlayer (es : List (Entity K)) (sid : Nat) : Option (Entity K) :=
  es.find? (fun e => e.id = sid && e.isBot = false)

/-- In-place mutation of the entity found by players.get(socket.id). -/
def updPlayer (es : List (Entity K)) (sid : Nat) (f : Entity K → Entity K) :
    List (Entity K) :=
  es.map (fun e => if e.id = sid && e.isBot = false then f e else e)

/- ===== Population Manager, server.js lines 249-268 =====
manageBotPopulation reads totalPlayers = players.size + bots.size once; the
add branch tops bots up to minBots, and the remove branch (which can only
fire when the add branch did not, since the stale total is compared) takes
away min(bots.size, totalPlayers - maxBots) bots.  Only the bot count
matters to claim C4, so the embedding is on counts. -/

/-- Bot count after one manageBotPopulation run with the given human and
bot counts (server.js lines 249-268). -/
def manageBotPopulation (humans bs : Nat) : Nat :=
  let totalPlayers := humans + bs
  let bs1 := if totalPlayers < minBots then bs + (minBots - totalPlayers) else bs
  if 0 < bs1 ∧ maxBots < totalPlayers then bs1 - min bs1 (totalPlayers - maxBots)
  else bs1

/- ===== Session Gateway handlers, server.js lines 434-598 =====
Each handler takes the entity list (players then bots, in map order), the
sender socket id, whatever the inbound message carried, and the current
time; it returns the updated entity list and the emissions, in order. -/

/-- Math.max(lo, Math.min(hi, v)). -/
def clampVal (lo hi v : K) : K := max lo (min hi v)

/-- socket.on playerMove, server.js lines 434-448. -/
def handlePlayerMove (es : List (Entity K)) (sid : Nat) (mx my : K) :
    List (Entity K) × List (Emit K) :=
  match getPlayer es sid with
  | none => (es, [])
  | some p =>
    if p.alive = false then (es, [])
    else
      let nx := clampVal 0 worldWidth mx
      let ny := clampVal 0 worldHeight my
      (updPlayer es sid (fun e => { e with x := nx, y := ny }),
       [⟨Audience.othersOnly, Event.playerMoved sid nx ny⟩])

/-- socket.on emitPing, server.js lines 451-482.  On success the handler
stamps lastPing, broadcasts the ping to every session, and then overwrites
the sender score with floor(secondsSinceJoin) (line 481) with no kill
bonus. -/
def handleEmitPing (es : List (Entity K)) (sid : Nat) (now : Int) :
    List (Entity K) × List (Emit K) :=
  match getPlayer es sid with
  | none => (es, [])
  | some p =>
    if p.alive = false then (es, [])
    else if now - p.lastPing < pingCooldownMs then
      (es, [⟨Audience.senderOnly,
             Event.pingCooldownNotice (pingCooldownMs - (now - p.lastPing))⟩])
    else
      (updPlayer es sid (fun e =>
        { e with lastPing := now, score := Int.fdiv (now - e.joinTime) 1000 }),
       [⟨Audience.allSessions, Event.pingEmitted sid p.x p.y now⟩])

/-- socket.on shoot, server.js lines 485-517.  cosA and sinA stand for
Math.cos(shootData.angle) and Math.sin(shootData.angle). -/
def handleShoot (es : List (Entity K)) (bulletCtr : Nat) (sid : Nat)
    (cosA sinA : K) (now : Int) :
    List (Entity K) × List (Emit K) × List (Bullet K) × Nat :=
  match getPlayer es sid with
  | none => (es, [], [], bulletCtr)
  | some p =>
    if p.alive = false then (es, [], [], bulletCtr)
    else if now - p.lastShoot < shootCooldownMs then (es, [], [], bulletCtr)
    else
      let b : Bullet K :=
        { id := bulletCtr, ownerId := sid, ownerName := p.name,
          x := p.x, y := p.y,
          vx := cosA * bulletSpeed, vy := sinA * bulletSpeed,
          damage := bulletDamage, createdAt := now }
      (updPlayer es sid (fun e => { e with lastShoot := now }),
       [⟨Audience.allSessions, Event.bulletFired b⟩], [b], bulletCtr + 1)

/-- kills++ and score += 100 on the entity found by
players.get(id) || bots.get(id); a miss leaves the list unchanged, exactly
like the if (shooter) / if (eliminator) guards. -/
def creditKill (es : List (Entity K)) (eid : Nat) : List (Entity K) :=
  es.map (fun e =>
    if e.id = eid then { e with kills := e.kills + 1, score := e.score + 100 }
    else e)

/-- socket.on playerEliminated, server.js lines 520-549.  Note: only
existence of the sender is checked, its alive flag is not, and the sender
health is left untouched while alive is set to false.  The delayed
respawn (setTimeout, line 543) is outside the synchronous effect. -/
def handlePlayerEliminated (es : List (Entity K)) (sid eliminatorId : Nat) :
    List (Entity K) × List (Emit K) :=
  match getPlayer es sid with
  | none => (es, [])
  | some _ =>
    let es1 := updPlayer es sid (fun e =>
      { e with alive := false, deaths := e.deaths + 1 })
    let es2 := creditKill es1 eliminatorId
    match getPlayer es2 sid with
    | none => (es2, [])
    | some q =>
      (es2, [⟨Audience.allSessions,
              Event.playerDied sid eliminatorId q.score q.kills q.deaths⟩])

/-- socket.on disconnect, server.js lines 552-571: overwrite score with
floor(secondsSinceJoin) (no kill bonus), broadcast playerLeft with that
finalScore to the other sessions, remove the player.  The trailing
manageBotPopulation call only touches bot counts and is modelled
separately. -/
def handleDisconnect (es : List (Entity K)) (sid : Nat) (now : Int) :
    List (Entity K) × List (Emit K) :=
  match getPlayer es sid with
  | none => (es, [])
  | some p =>
    let finalScore := Int.fdiv (now - p.joinTime) 1000
    (es.filter (fun e => !(e.id = sid && e.isBot = false)),
     [⟨Audience.othersOnly, Event.playerLeft sid finalScore⟩])

/-- socket.on setPlayerName, server.js lines 575-585.  Only existence is
checked, not aliveness; name || 'Anonymous' maps the empty string to
Anonymous. -/
def handleSetPlayerName (es : List (Entity K)) (sid : Nat) (name : String) :
    List (Entity K) × List (Emit K) :=
  match getPlayer es sid with
  | none => (es, [])
  | some _ =>
    let n := if name = "" then ("Anonymous" : String) else name
    (updPlayer es sid (fun e => { e with name := n }),
     [⟨Audience.allSessions, Event.playerNameUpdated sid n⟩])

/-- socket.on chatMessage, server.js lines 588-598.  Only existence is
checked, not aliveness. -/
def handleChatMessage (es : List (Entity K)) (sid : Nat) (msg : String)
    (now : Int) : List (Entity K) × List (Emit K) :=
  match getPlayer es sid with
  | none => (es, [])
  | some _ => (es, [⟨Audience.allSessions, Event.chatMessage sid msg now⟩])

/- ===== Tick score recomputation, server.js lines 612-623 ===== -/

/-- Per-entity score recomputation done by the tick loop for every living
player and bot: score = Math.floor((now - joinTime)/1000) + kills*100. -/
def recomputeScore (now : Int) (e : Entity K) : Entity K :=
  if e.alive then
    { e with score := Int.fdiv (now - e.joinTime) 1000 + e.kills * 100 }
  else e

/- ===== Bot wall bounce, server.js lines 206-219 =====
newX and newY are the projected coordinates computed on lines 203-204 as
bot.x + Math.cos(direction)*speed and bot.y + Math.sin(direction)*speed;
piv stands for Math.PI. -/

/-- Wall-bounce step: returns (direction, targetDirection, x, y) after the
two bounce blocks. -/
def botBounce (piv dir tdir newX newY : K) : K × K × K × K :=
  let s1 : K × K × K :=
    if newX < 50 ∨ worldWidth - 50 < newX then
      (piv - dir, piv - dir, max 50 (min (worldWidth - 50) newX))
    else (dir, tdir, newX)
  let s2 : K × K × K :=
    if newY < 50 ∨ worldHeight - 50 < newY then
      (-s1.1, -s1.1, max 50 (min (worldHeight - 50) newY))
    else (s1.1, s1.2.1, newY)
  (s2.1, s2.2.1, s1.2.2, s2.2.2)

/- ===== Combat Resolver, server.js lines 291-371 =====
For one bullet the source iterates allTargets = [...players, ...bots] with
forEach; a hit applies damage, emits playerHit, deletes the bullet from the
map, emits bulletRemoved, and on death credits the shooter, emits
playerDied and (for a bot) respawns the target in place.  forEach cannot
break, so the iteration continues over the remaining targets even after
the bullet was deleted; the embedding reproduces this faithfully.  rand
supplies the Math.random() world coordinates used by in-place bot
respawn, indexed by the threaded counter rc. -/

/-- Math.sqrt((tx-bx)^2 + (ty-by)^2) < 15, in squared form. -/
def hitTest (b : Bullet K) (t : Entity K) : Bool :=
  decide ((t.x - b.x) * (t.x - b.x) + (t.y - b.y) * (t.y - b.y) < 15 * 15)

/-- The forEach body of lines 310-369 applied along the target list.
done holds the already visited targets, evs the emissions so far, present
whether the bullet is still in the map.  The leading Nat is pure
structural fuel: the caller passes the length of the remaining target
list, which every step preserves (creditKill is a map), so the
fuel-exhausted arm is never reached.  Returns the final entity list,
emissions, rand counter and presence flag. -/
def processTargetsF (b : Bullet K) (rand : Nat → K × K) :
    Nat → List (Entity K) → List (Entity K) → List (Emit K) → Nat → Bool →
    List (Entity K) × List (Emit K) × Nat × Bool
  | _, done, [], evs, rc, present => (done, evs, rc, present)
  | 0, done, rest, evs, rc, present => (done ++ rest, evs, rc, present)
  | fuel + 1, done, t :: rest, evs, rc, present =>
    if t.id = b.ownerId ∨ t.alive = false then
      processTargetsF b rand fuel (done ++ [t]) rest evs rc present
    else if hitTest b t then
      let t1 : Entity K := { t with health := t.health - b.damage }
      let evs1 := evs ++
        [⟨Audience.allSessions, Event.playerHit t.id b.damage t1.health b.ownerId⟩,
         ⟨Audience.allSessions, Event.bulletRemoved b.id⟩]
      if t1.health ≤ 0 then
        let t2 : Entity K :=
          { t1 with alive := false, deaths := t1.deaths + 1, health := 0 }
        let done1 := creditKill done b.ownerId
        let rest1 := creditKill rest b.ownerId
        let evs2 := evs1 ++
          [⟨Audience.allSessions,
            Event.playerDied t2.id b.ownerId t2.score t2.kills t2.deaths⟩]
        if t2.isBot then
          let t3 : Entity K :=
            { t2 with x := (rand rc).1, y := (rand rc).2,
                      health := maxHealth, alive := true }
          processTargetsF b rand fuel (done1 ++ [t3]) rest1 evs2 (rc + 1) false
        else
          processTargetsF b rand fuel (done1 ++ [t2]) rest1 evs2 rc false
      else
        processTargetsF b rand fuel (done ++ [t1]) rest evs1 rc false
    else
      processTargetsF b rand fuel (done ++ [t]) rest evs rc present

/-- The full collision scan of one bullet over allTargets. -/
def processTargets (b : Bullet K) (rand : Nat → K × K)
    (done rest : List (Entity K)) (evs : List (Emit K)) (rc : Nat)
    (present : Bool) : List (Entity K) × List (Emit K) × Nat × Bool :=
  processTargetsF b rand rest.length done rest evs rc present

/-- One iteration of the bullets.forEach body (lines 294-369): advance the
bullet, expire it on lifetime or world bounds, otherwise run the collision
scan; the Option result is the surviving bullet. -/
def updateBullet (now : Int) (rand : Nat → K × K) (es : List (Entity K))
    (b : Bullet K) (rc : Nat) :
    List (Entity K) × List (Emit K) × Nat × Option (Bullet K) :=
  let b1 : Bullet K := { b with x := b.x + b.vx, y := b.y + b.vy }
  if bulletLifetime < now - b1.createdAt ∨
      b1.x < 0 ∨ worldWidth < b1.x ∨ b1.y < 0 ∨ worldHeight < b1.y then
    (es, [⟨Audience.allSessions, Event.bulletRemoved b1.id⟩], rc, none)
  else
    let r := processTargets b1 rand [] es [] rc true
    (r.1, r.2.1, r.2.2.1, if r.2.2.2 then some b1 else none)

/-- Full Combat Resolver pass: bullets.forEach over the bullet list in map
order, threading entity mutations.  Returns the entities, the surviving
bullets, the emissions in order, and the rand counter. -/
def updateBullets (now : Int) (rand : Nat → K × K) :
    List (Entity K) → List (Bullet K) → Nat →
    List (Entity K) × List (Bullet K) × List (Emit K) × Nat
  | es, [], rc => (es, [], [], rc)
  | es, b :: bs, rc =>
    let r1 := updateBullet now rand es b rc
    let r2 := updateBullets now rand r1.1 bs r1.2.2.1
    (r2.1, (r1.2.2.2.toList) ++ r2.2.1, r1.2.1 ++ r2.2.2.1, r2.2.2.2)

/- ===== Invariant predicates and concrete fixtures ===== -/

/-- The health/alive invariant claimed for entities: health within
[0, maxHealth], and a dead entity has health 0. -/
def healthInv (e : Entity K) : Prop :=
  0 ≤ e.health ∧ e.health ≤ maxHealth ∧ (e.alive = false → e.health = 0)

instance (e : Entity K) : Decidable (healthInv e) := by
  unfold healthInv; infer_instance

/-- healthInv over a whole entity list. -/
def allHealthInv (es : List (Entity K)) : Prop := ∀ e ∈ es, healthInv e

instance (es : List (Entity K)) : Decidable (allHealthInv es) := by
  unfold allHealthInv; infer_instance

/-- The sender entity (under the players.get view) sits inside world
bounds. -/
def movedInBounds (es : List (Entity K)) (sid : Nat) : Prop :=
  ∀ e ∈ es, e.id = sid → e.isBot = false →
    0 ≤ e.x ∧ e.x ≤ worldWidth ∧ 0 ≤ e.y ∧ e.y ≤ worldHeight

instance (es : List (Entity K)) (sid : Nat) :
    Decidable (movedInBounds es sid) := by
  unfold movedInBounds; infer_instance

/-- The sender entity carries the given last-ping stamp. -/
def pingStamped (es : List (Entity K)) (sid : Nat) (now : Int) : Prop :=
  ∀ e ∈ es, e.id = sid → e.isBot = false → e.lastPing = now

instance (es : List (Entity K)) (sid : Nat) (now : Int) :
    Decidable (pingStamped es sid now) := by
  unfold pingStamped; infer_instance

/-- The sender entity carries score floor(secondsSinceJoin), with no kill
bonus term. -/
def scoreStamped (es : List (Entity K)) (sid : Nat) (now : Int) : Prop :=
  ∀ e ∈ es, e.id = sid → e.isBot = false →
    e.score = Int.fdiv (now - e.joinTime) 1000

instance (es : List (Entity K)) (sid : Nat) (now : Int) :
    Decidable (scoreStamped es sid now) := by
  unfold scoreStamped; infer_instance

/-- A freshly joined human entity fixture at a given position. -/
def mkHuman (i : Nat) (px py : K) : Entity K :=
  { id := i, name := "P", x := px, y := py, alive := true, joinTime := 0,
    score := 0, kills := 0, deaths := 0, health := maxHealth,
    lastShoot := 0, lastPing := 0, isBot := false }

/-- A projectile fixture owned by entity 0. -/
def mkBullet (i : Nat) (bx bY vx vy : K) : Bullet K :=
  { id := i, ownerId := 0, ownerName := "P", x := bx, y := bY,
    vx := vx, vy := vy, damage := bulletDamage, createdAt := 0 }

end Model

section Claims

variable {K : Type} [LinearOrderedCommRing K]

/- Helper lemmas shared by several claims. -/

theorem clampVal_eq_self (lo hi w : K) (h1 : lo ≤ w) (h2 : w ≤ hi) :
    clampVal lo hi w = w := by
  unfold clampVal
  rw [min_eq_right h2, max_eq_right h1]

theorem mem_updPlayer {es : List (Entity K)} {sid : Nat}
    {f : Entity K → Entity K} {e : Entity K} (he : e ∈ updPlayer es sid f) :
    (∃ a, a ∈ es ∧ a.id = sid ∧ a.isBot = false ∧ e = f a) ∨
    (e ∈ es ∧ ¬(e.id = sid ∧ e.isBot = false)) := by
  simp only [updPlayer, List.mem_map] at he
  obtain ⟨a, ha, rfl⟩ := he
  by_cases hc : (decide (a.id = sid) && decide (a.isBot = false)) = true
  · have hc2 := hc
    simp only [Bool.and_eq_true, decide_eq_true_eq] at hc2
    exact Or.inl ⟨a, ha, hc2.1, hc2.2, by rw [if_pos hc]⟩
  · have hc2 : ¬(a.id = sid ∧ a.isBot = false) := by
      intro h2
      exact hc (by simp [h2.1, h2.2])
    rw [if_neg hc]
    exact Or.inr ⟨ha, hc2⟩

/-- Claim C4 counterexample: with 11 connected humans the upper bound
maxBots is already violated after a Population Manager run, and running
another adjustment step does not repair it, so the violation is not
transient. -/
theorem manageBotPopulation_exceeds_max :
    manageBotPopulation 11 0 = 0 ∧
    maxBots < 11 + manageBotPopulation 11 0 ∧
    maxBots < 11 + manageBotPopulation 11 (manageBotPopulation 11 0) := by
  decide

/-- Claim C4 (amended): whenever the human count is at most maxBots, one
manageBotPopulation run establishes minBots ≤ humans + bots ≤ maxBots; with
more humans than maxBots the total stays above maxBots persistently. -/
theorem manageBotPopulation_bounds (humans bs : Nat) (h : humans ≤ maxBots) :
    minBots ≤ humans + manageBotPopulation humans bs ∧
    humans + manageBotPopulation humans bs ≤ maxBots := by
  simp only [manageBotPopulation, minBots, maxBots] at *
  split_ifs <;> omega

theorem manageBotPopulation_bounds_witness :
    minBots ≤ 7 + manageBotPopulation 7 0 ∧
    7 + manageBotPopulation 7 0 ≤ maxBots :=
  manageBotPopulation_bounds 7 0 (by decide)

/-- Claim C5 counterexample: a successful emitPing between ticks overwrites
the sender score with floor(secondsSinceJoin) and drops the kills*100
bonus, so between ticks score does not equal the derived formula. -/
theorem score_formula_fails_between_ticks :
    (getPlayer (handleEmitPing
        [{ mkHuman 0 (500 : ℤ) 500 with kills := 1, score := 105 }] 0 5000).1 0).map
      (fun e =>
        decide (e.score = Int.fdiv (5000 - e.joinTime) 1000 + e.kills * 100)) =
      some false := by
  decide

/-- Claim C5 (amended): the tick recomputation itself is a derived value,
score = floor(secondsSinceJoin) + kills*100, and is idempotent; between
ticks kill credits and ping/disconnect overwrites can move score off the
formula. -/
theorem recomputeScore_derived_idempotent (now : Int) (e : Entity K) :
    recomputeScore now (recomputeScore now e) = recomputeScore now e ∧
    (e.alive = true →
      (recomputeScore now e).score =
        Int.fdiv (now - e.joinTime) 1000 + e.kills * 100) := by
  unfold recomputeScore
  by_cases h : e.alive <;> simp [h]

theorem recomputeScore_derived_idempotent_witness :
    recomputeScore 5000 (recomputeScore 5000 (mkHuman 3 (4 : ℤ) 4)) =
      recomputeScore 5000 (mkHuman 3 (4 : ℤ) 4) ∧
    (recomputeScore 5000 (mkHuman 3 (4 : ℤ) 4)).score =
      Int.fdiv (5000 - 0) 1000 + 0 * 100 := by
  have h := recomputeScore_derived_idempotent 5000 (mkHuman 3 (4 : ℤ) 4)
  exact ⟨h.1, h.2 rfl⟩

/-- Claim C6: a move intent clamps the sender position into
[0, worldWidth] x [0, worldHeight] whatever the input magnitude, and the
clamping is idempotent. -/
theorem playerMove_clamps (es : List (Entity K)) (sid : Nat) (p : Entity K)
    (hp : getPlayer es sid = some p) (halive : p.alive = true) (mx my : K) :
    movedInBounds (handlePlayerMove es sid mx my).1 sid ∧
    clampVal 0 worldWidth (clampVal 0 worldWidth mx) =
      clampVal 0 worldWidth mx ∧
    clampVal 0 worldHeight (clampVal 0 worldHeight my) =
      clampVal 0 worldHeight my := by
  have hW : (0 : K) ≤ worldWidth := by norm_num [worldWidth]
  have hH : (0 : K) ≤ worldHeight := by norm_num [worldHeight]
  have bx1 : (0 : K) ≤ clampVal 0 worldWidth mx := le_max_left _ _
  have bx2 : clampVal 0 worldWidth mx ≤ worldWidth :=
    max_le hW (min_le_left _ _)
  have by1 : (0 : K) ≤ clampVal 0 worldHeight my := le_max_left _ _
  have by2 : clampVal 0 worldHeight my ≤ worldHeight :=
    max_le hH (min_le_left _ _)
  refine ⟨?_, clampVal_eq_self _ _ _ bx1 bx2, clampVal_eq_self _ _ _ by1 by2⟩
  intro e he hid hbot
  simp only [handlePlayerMove, hp, halive] at he
  rcases mem_updPlayer he with ⟨a, _, _, _, rfl⟩ | ⟨_, hnc⟩
  · exact ⟨bx1, bx2, by1, by2⟩
  · exact absurd ⟨hid, hbot⟩ hnc

theorem playerMove_clamps_witness :
    movedInBounds (handlePlayerMove [mkHuman 2 (5 : ℤ) 5] 2 99999 (-7)).1 2 ∧
    clampVal (0 : ℤ) worldWidth (clampVal 0 worldWidth 99999) =
      clampVal 0 worldWidth 99999 ∧
    clampVal (0 : ℤ) worldHeight (clampVal 0 worldHeight (-7)) =
      clampVal 0 worldHeight (-7) :=
  playerMove_clamps [mkHuman 2 (5 : ℤ) 5] 2 (mkHuman 2 (5 : ℤ) 5)
    (by decide) (by decide) 99999 (-7)

/-- Claim C9: the playerLeft broadcast emitted on disconnect carries
finalScore = floor(secondsSinceJoin) only; the kills*100 bonus does not
appear, whatever the kill count of the leaving player. -/
theorem disconnect_finalScore_excludes_kills (es : List (Entity K))
    (sid : Nat) (now : Int) (p : Entity K) (hp : getPlayer es sid = some p) :
    (handleDisconnect es sid now).2 =
      [⟨Audience.othersOnly,
        Event.playerLeft sid (Int.fdiv (now - p.joinTime) 1000)⟩] := by
  simp [handleDisconnect, hp]

theorem disconnect_finalScore_excludes_kills_witness :
    (handleDisconnect
        [{ mkHuman 4 (1 : ℤ) 2 with kills := 7, score := 712 }] 4 12345).2 =
      [⟨Audience.othersOnly,
        Event.playerLeft 4 (Int.fdiv (12345 - 0) 1000)⟩] :=
  disconnect_finalScore_excludes_kills
    [{ mkHuman 4 (1 : ℤ) 2 with kills := 7, score := 712 }] 4 12345
    { mkHuman 4 (1 : ℤ) 2 with kills := 7, score := 712 } (by decide)

/-- Claim C10: a successful emitPing overwrites the sender score with
floor(secondsSinceJoin); the kills*100 bonus is absent until the next tick
recomputation. -/
theorem emitPing_overwrites_score (es : List (Entity K)) (sid : Nat)
    (now : Int) (p : Entity K) (hp : getPlayer es sid = some p)
    (halive : p.alive = true) (hcd : pingCooldownMs ≤ now - p.lastPing) :
    scoreStamped (handleEmitPing es sid now).1 sid now := by
  intro e he hid hbot
  have hnlt : ¬(now - p.lastPing < pingCooldownMs) := not_lt.mpr hcd
  simp only [handleEmitPing, hp, halive, hnlt, if_false, ite_false] at he
  rcases mem_updPlayer he with ⟨a, _, _, _, rfl⟩ | ⟨_, hnc⟩
  · rfl
  · exact absurd ⟨hid, hbot⟩ hnc

theorem emitPing_overwrites_score_witness :
    scoreStamped
      (handleEmitPing
        [{ mkHuman 6 (9 : ℤ) 9 with kills := 3, score := 305 }] 6 5000).1
      6 5000 :=
  emitPing_overwrites_score
    [{ mkHuman 6 (9 : ℤ) 9 with kills := 3, score := 305 }] 6 5000
    { mkHuman 6 (9 : ℤ) 9 with kills := 3, score := 305 }
    (by decide) (by decide) (by decide)

/-- Claim C3 counterexample: a dead sender still renames itself with a
name broadcast, still triggers a chat broadcast, and still triggers a
playerDied broadcast with a deaths increment through the client-reported
elimination, because those three handlers only check existence. -/
theorem dead_sender_intents_take_effect :
    (handleSetPlayerName
        [{ mkHuman 3 (1 : ℤ) 1 with alive := false, deaths := 1 }] 3 ("X")).2 =
      [⟨Audience.allSessions, Event.playerNameUpdated 3 ("X")⟩] ∧
    (handleSetPlayerName
        [{ mkHuman 3 (1 : ℤ) 1 with alive := false, deaths := 1 }] 3 ("X")).1 ≠
      [{ mkHuman 3 (1 : ℤ) 1 with alive := false, deaths := 1 }] ∧
    (handleChatMessage
        [{ mkHuman 3 (1 : ℤ) 1 with alive := false, deaths := 1 }] 3 ("hi") 77).2 =
      [⟨Audience.allSessions, Event.chatMessage 3 ("hi") 77⟩] ∧
    (handlePlayerEliminated
        [{ mkHuman 3 (1 : ℤ) 1 with alive := false, deaths := 1 }] 3 9).2 =
      [⟨Audience.allSessions, Event.playerDied 3 9 0 0 2⟩] ∧
    (handlePlayerEliminated
        [{ mkHuman 3 (1 : ℤ) 1 with alive := false, deaths := 1 }] 3 9).1 ≠
      [{ mkHuman 3 (1 : ℤ) 1 with alive := false, deaths := 1 }] := by
  decide

/- getPlayer tracking lemmas for the existence-only handlers. -/

theorem getPlayer_updPlayer (es : List (Entity K)) (sid : Nat)
    (f : Entity K → Entity K)
    (hid : ∀ a, (f a).id = a.id) (hbot : ∀ a, (f a).isBot = a.isBot) :
    ∀ p, getPlayer es sid = some p →
      getPlayer (updPlayer es sid f) sid = some (f p) := by
  induction es with
  | nil =>
    intro p hp
    simp [getPlayer] at hp
  | cons a es ih =>
    intro p hp
    unfold getPlayer at hp ⊢
    unfold updPlayer
    simp only [List.map_cons]
    by_cases hc : (decide (a.id = sid) && decide (a.isBot = false)) = true
    · simp only [List.find?, hc] at hp
      injection hp with hpa
      subst hpa
      rw [if_pos hc]
      simp only [List.find?, hid, hbot, hc]
    · have hcf : (decide (a.id = sid) && decide (a.isBot = false)) = false :=
        Bool.not_eq_true _ |>.mp hc
      simp only [List.find?, hcf] at hp
      rw [if_neg hc]
      simp only [List.find?, hcf]
      exact ih p hp

theorem getPlayer_creditKill (es : List (Entity K)) (sid eid : Nat) :
    ∀ p, getPlayer es sid = some p →
      getPlayer (creditKill es eid) sid =
        some (if p.id = eid then
          { p with kills := p.kills + 1, score := p.score + 100 } else p) := by
  induction es with
  | nil =>
    intro p hp
    simp [getPlayer] at hp
  | cons a es ih =>
    intro p hp
    unfold getPlayer at hp ⊢
    unfold creditKill
    simp only [List.map_cons]
    by_cases hc : (decide (a.id = sid) && decide (a.isBot = false)) = true
    · simp only [List.find?, hc] at hp
      injection hp with hpa
      subst hpa
      by_cases he : a.id = eid
      · rw [if_pos he]
        simp only [List.find?, hc]
      · rw [if_neg he]
        simp only [List.find?, hc]
    · have hcf : (decide (a.id = sid) && decide (a.isBot = false)) = false :=
        Bool.not_eq_true _ |>.mp hc
      simp only [List.find?, hcf] at hp
      by_cases he : a.id = eid
      · rw [if_pos he]
        simp only [List.find?, hcf]
        exact ih p hp
      · rw [if_neg he]
        simp only [List.find?, hcf]
        exact ih p hp

/-- The three existence-only handlers take their full effect for every
existing sender, with no aliveness condition: setPlayerName updates the
name and broadcasts it, chatMessage broadcasts the message, and the
client-reported elimination marks the stored sender dead, increments its
deaths and broadcasts playerDied. -/
theorem existence_only_intents (es : List (Entity K)) (sid : Nat)
    (p : Entity K) (hp : getPlayer es sid = some p) :
    (∀ n, handleSetPlayerName es sid n =
      (updPlayer es sid (fun e =>
        { e with name := if n = "" then ("Anonymous" : String) else n }),
       [⟨Audience.allSessions,
         Event.playerNameUpdated sid
           (if n = "" then ("Anonymous" : String) else n)⟩])) ∧
    (∀ m now, handleChatMessage es sid m now =
      (es, [⟨Audience.allSessions, Event.chatMessage sid m now⟩])) ∧
    (∀ eid, ∃ q, getPlayer (handlePlayerEliminated es sid eid).1 sid = some q ∧
      q.alive = false ∧ q.deaths = p.deaths + 1 ∧
      (handlePlayerEliminated es sid eid).2 =
        [⟨Audience.allSessions,
          Event.playerDied sid eid q.score q.kills q.deaths⟩]) := by
  refine ⟨?_, ?_, ?_⟩
  · intro n
    simp [handleSetPlayerName, hp]
  · intro m now
    simp [handleChatMessage, hp]
  · intro eid
    have h1 := getPlayer_updPlayer es sid
      (fun e => { e with alive := false, deaths := e.deaths + 1 })
      (fun a => rfl) (fun a => rfl) p hp
    have h2 := getPlayer_creditKill (updPlayer es sid
      (fun e => { e with alive := false, deaths := e.deaths + 1 })) sid eid _ h1
    refine ⟨(if p.id = eid then
        { p with alive := false, deaths := p.deaths + 1,
                 kills := p.kills + 1, score := p.score + 100 }
      else { p with alive := false, deaths := p.deaths + 1 }), ?_, ?_, ?_, ?_⟩
    · simp only [handlePlayerEliminated, hp, h2]
    · split_ifs <;> rfl
    · split_ifs <;> rfl
    · simp only [handlePlayerEliminated, hp, h2]

/-- Claim C3 (amended): move, emitPing and shoot are validated against
existence and aliveness of the sender; setPlayerName, chatMessage and the
client-reported elimination are validated against existence only and take
their full effect (state change and broadcast) for every existing sender
regardless of aliveness; a missing sender makes every handler a no-op. -/
theorem intent_guards (es : List (Entity K)) (sid : Nat) :
    (getPlayer es sid = none →
      (∀ mx my : K, handlePlayerMove es sid mx my = (es, [])) ∧
      (∀ now, handleEmitPing es sid now = (es, [])) ∧
      (∀ ctr cA sA now, handleShoot es ctr sid cA sA now = (es, [], [], ctr)) ∧
      (∀ n, handleSetPlayerName es sid n = (es, [])) ∧
      (∀ m now, handleChatMessage es sid m now = (es, [])) ∧
      (∀ eid, handlePlayerEliminated es sid eid = (es, []))) ∧
    (∀ p, getPlayer es sid = some p → p.alive = false →
      (∀ mx my : K, handlePlayerMove es sid mx my = (es, [])) ∧
      (∀ now, handleEmitPing es sid now = (es, [])) ∧
      (∀ ctr cA sA now, handleShoot es ctr sid cA sA now = (es, [], [], ctr))) ∧
    (∀ p, getPlayer es sid = some p →
      (∀ n, handleSetPlayerName es sid n =
        (updPlayer es sid (fun e =>
          { e with name := if n = "" then ("Anonymous" : String) else n }),
         [⟨Audience.allSessions,
           Event.playerNameUpdated sid
             (if n = "" then ("Anonymous" : String) else n)⟩])) ∧
      (∀ m now, handleChatMessage es sid m now =
        (es, [⟨Audience.allSessions, Event.chatMessage sid m now⟩])) ∧
      (∀ eid, ∃ q, getPlayer (handlePlayerEliminated es sid eid).1 sid = some q ∧
        q.alive = false ∧ q.deaths = p.deaths + 1 ∧
        (handlePlayerEliminated es sid eid).2 =
          [⟨Audience.allSessions,
            Event.playerDied sid eid q.score q.kills q.deaths⟩])) := by
  refine ⟨?_, ?_, fun p hp => existence_only_intents es sid p hp⟩
  · intro h
    refine ⟨?_, ?_, ?_, ?_, ?_, ?_⟩ <;> intros <;>
      simp [handlePlayerMove, handleEmitPing, handleShoot, handleSetPlayerName,
        handleChatMessage, handlePlayerEliminated, h]
  · intro p hp hdead
    refine ⟨?_, ?_, ?_⟩ <;> intros <;>
      simp [handlePlayerMove, handleEmitPing, handleShoot, hp, hdead]

theorem intent_guards_witness :
    handlePlayerMove ([] : List (Entity ℤ)) 9 1 2 = ([], []) ∧
    handlePlayerEliminated ([] : List (Entity ℤ)) 9 0 = ([], []) ∧
    handlePlayerMove [{ mkHuman 3 (1 : ℤ) 1 with alive := false }] 3 1 2 =
      ([{ mkHuman 3 (1 : ℤ) 1 with alive := false }], []) ∧
    handleShoot [{ mkHuman 3 (1 : ℤ) 1 with alive := false }] 5 3 1 0 999 =
      ([{ mkHuman 3 (1 : ℤ) 1 with alive := false }], [], [], 5) ∧
    handleChatMessage [{ mkHuman 3 (1 : ℤ) 1 with alive := false }] 3 ("hi") 77 =
      ([{ mkHuman 3 (1 : ℤ) 1 with alive := false }],
       [⟨Audience.allSessions, Event.chatMessage 3 ("hi") 77⟩]) := by
  have h1 := (intent_guards ([] : List (Entity ℤ)) 9).1 (by decide)
  have h2 := (intent_guards [{ mkHuman 3 (1 : ℤ) 1 with alive := false }] 3).2.1
    { mkHuman 3 (1 : ℤ) 1 with alive := false } (by decide) (by decide)
  have h3 := (intent_guards [{ mkHuman 3 (1 : ℤ) 1 with alive := false }] 3).2.2
    { mkHuman 3 (1 : ℤ) 1 with alive := false } (by decide)
  exact ⟨h1.1 1 2, h1.2.2.2.2.2 0, h2.1 1 2, h2.2.2 5 1 0 999,
    h3.2.1 ("hi") 77⟩

/-- Claim C7: an emitPing inside the cooldown window yields exactly one
sender-only pingCooldown notice carrying remaining = cooldown - elapsed
and leaves the state (in particular lastPing) unchanged; outside the
window the ping is broadcast to every session and lastPing is stamped with
the current time. -/
theorem emitPing_cooldown_spec (es : List (Entity K)) (sid : Nat)
    (now : Int) (p : Entity K) (hp : getPlayer es sid = some p)
    (halive : p.alive = true) :
    (now - p.lastPing < pingCooldownMs →
      handleEmitPing es sid now =
        (es, [⟨Audience.senderOnly,
               Event.pingCooldownNotice (pingCooldownMs - (now - p.lastPing))⟩])) ∧
    (pingCooldownMs ≤ now - p.lastPing →
      (handleEmitPing es sid now).2 =
        [⟨Audience.allSessions, Event.pingEmitted sid p.x p.y now⟩] ∧
      pingStamped (handleEmitPing es sid now).1 sid now) := by
  constructor
  · intro hlt
    simp [handleEmitPing, hp, halive, hlt]
  · intro hge
    have hnlt : ¬(now - p.lastPing < pingCooldownMs) := not_lt.mpr hge
    refine ⟨by simp [handleEmitPing, hp, halive, hnlt], ?_⟩
    intro e he hid hbot
    simp only [handleEmitPing, hp, halive, hnlt, if_false, ite_false] at he
    rcases mem_updPlayer he with ⟨a, _, _, _, rfl⟩ | ⟨_, hnc⟩
    · rfl
    · exact absurd ⟨hid, hbot⟩ hnc

theorem emitPing_cooldown_spec_witness :
    handleEmitPing [{ mkHuman 1 (9 : ℤ) 9 with lastPing := 4500 }] 1 5000 =
      ([{ mkHuman 1 (9 : ℤ) 9 with lastPing := 4500 }],
       [⟨Audience.senderOnly, Event.pingCooldownNotice 500⟩]) ∧
    (handleEmitPing [{ mkHuman 1 (9 : ℤ) 9 with lastPing := 4500 }] 1 9999).2 =
      [⟨Audience.allSessions, Event.pingEmitted 1 9 9 9999⟩] ∧
    pingStamped
      (handleEmitPing [{ mkHuman 1 (9 : ℤ) 9 with lastPing := 4500 }] 1 9999).1
      1 9999 := by
  have hc := emitPing_cooldown_spec
    [{ mkHuman 1 (9 : ℤ) 9 with lastPing := 4500 }] 1 5000
    { mkHuman 1 (9 : ℤ) 9 with lastPing := 4500 } (by decide) (by decide)
  have hs := emitPing_cooldown_spec
    [{ mkHuman 1 (9 : ℤ) 9 with lastPing := 4500 }] 1 9999
    { mkHuman 1 (9 : ℤ) 9 with lastPing := 4500 } (by decide) (by decide)
  exact ⟨hc.1 (by decide), hs.2 (by decide)⟩

/-- Claim C8 counterexample: the particular consequence fails for the
spec scenario itself: a bot at the origin with heading 0 projects to
(speed, 0), both margin checks fire, and the final heading is
-(pi - heading), not pi - heading (here with pi instantiated at 3 the
final heading is -3, not 3 - 0). -/
theorem botBounce_corner_refutes :
    botBounce (3 : ℤ) 0 0 2 0 = (-3, -3, 50, 50) ∧ ((-3 : ℤ) ≠ 3 - 0) := by
  decide

/-- Claim C8 (amended): each margin check reflects the heading about its
own axis and clamps that coordinate to [50, dimension - 50], x first and
then y; a bot whose projected x < 50 while projected y stays inside the
margin ends with heading pi - heading and x = 50, but when both axes
trigger the final heading is -(pi - heading). -/
theorem botBounce_axis_reflection (piv dir tdir newX newY : K) :
    (newX < 50 → 50 ≤ newY → newY ≤ worldHeight - 50 →
      botBounce piv dir tdir newX newY = (piv - dir, piv - dir, 50, newY)) ∧
    (worldWidth - 50 < newX → 50 ≤ newY → newY ≤ worldHeight - 50 →
      botBounce piv dir tdir newX newY =
        (piv - dir, piv - dir, worldWidth - 50, newY)) ∧
    (50 ≤ newX → newX ≤ worldWidth - 50 → newY < 50 →
      botBounce piv dir tdir newX newY = (-dir, -dir, newX, 50)) ∧
    (newX < 50 → newY < 50 →
      botBounce piv dir tdir newX newY =
        (-(piv - dir), -(piv - dir), 50, 50)) := by
  have hW : (50 : K) ≤ worldWidth - 50 := by norm_num [worldWidth]
  have hH : (50 : K) ≤ worldHeight - 50 := by norm_num [worldHeight]
  refine ⟨?_, ?_, ?_, ?_⟩
  · intro h1 h2 h3
    have hyn : ¬(newY < 50 ∨ worldHeight - 50 < newY) := by
      push_neg
      exact ⟨h2, h3⟩
    simp only [botBounce, if_pos (Or.inl h1), if_neg hyn]
    rw [min_eq_right (h1.le.trans hW), max_eq_left h1.le]
  · intro h1 h2 h3
    have hyn : ¬(newY < 50 ∨ worldHeight - 50 < newY) := by
      push_neg
      exact ⟨h2, h3⟩
    simp only [botBounce, if_pos (Or.inr h1), if_neg hyn]
    rw [min_eq_left h1.le, max_eq_right hW]
  · intro h1 h2 h3
    have hxn : ¬(newX < 50 ∨ worldWidth - 50 < newX) := by
      push_neg
      exact ⟨h1, h2⟩
    simp only [botBounce, if_neg hxn, if_pos (Or.inl h3)]
    rw [min_eq_right (h3.le.trans hH), max_eq_left h3.le]
  · intro h1 h2
    simp only [botBounce, if_pos (Or.inl h1), if_pos (Or.inl h2)]
    rw [min_eq_right (h1.le.trans hW), max_eq_left h1.le,
      min_eq_right (h2.le.trans hH), max_eq_left h2.le]

theorem botBounce_axis_reflection_witness :
    botBounce (3 : ℤ) 1 2 10 600 = (3 - 1, 3 - 1, 50, 600) ∧
    botBounce (3 : ℤ) 1 2 100 7 = (-1, -1, 100, 50) := by
  have h1 := botBounce_axis_reflection (3 : ℤ) 1 2 10 600
  have h2 := botBounce_axis_reflection (3 : ℤ) 1 2 100 7
  exact ⟨h1.1 (by decide) (by decide) (by decide),
         h2.2.2.1 (by decide) (by decide) (by decide)⟩

/- Lemmas for the health invariant of the Combat Resolver. -/

theorem allHealthInv_append {xs ys : List (Entity K)} :
    allHealthInv (xs ++ ys) ↔ allHealthInv xs ∧ allHealthInv ys := by
  unfold allHealthInv
  exact List.forall_mem_append

theorem allHealthInv_cons {t : Entity K} {ts : List (Entity K)} :
    allHealthInv (t :: ts) ↔ healthInv t ∧ allHealthInv ts := by
  unfold allHealthInv
  exact List.forall_mem_cons

theorem allHealthInv_nil : allHealthInv ([] : List (Entity K)) :=
  fun e he => absurd he (List.not_mem_nil e)

theorem creditKill_healthInv (es : List (Entity K)) (eid : Nat)
    (h : allHealthInv es) : allHealthInv (creditKill es eid) := by
  intro e he
  simp only [creditKill, List.mem_map] at he
  obtain ⟨a, ha, rfl⟩ := he
  have ha2 := h a ha
  by_cases hc : a.id = eid
  · rw [if_pos hc]
    exact ha2
  · rw [if_neg hc]
    exact ha2

theorem processTargetsF_healthInv (b : Bullet K) (rand : Nat → K × K)
    (hd : 0 ≤ b.damage) :
    ∀ (fuel : Nat) (done rest : List (Entity K)) (evs : List (Emit K))
      (rc : Nat) (present : Bool),
      allHealthInv done → allHealthInv rest →
      allHealthInv (processTargetsF b rand fuel done rest evs rc present).1 := by
  intro fuel
  induction fuel with
  | zero =>
    intro done rest evs rc present h1 h2
    cases rest with
    | nil => exact h1
    | cons t ts => exact allHealthInv_append.mpr ⟨h1, h2⟩
  | succ fuel ih =>
    intro done rest evs rc present h1 h2
    cases rest with
    | nil => exact h1
    | cons t ts =>
      obtain ⟨ht, hts⟩ := allHealthInv_cons.mp h2
      simp only [processTargetsF]
      by_cases hcond : t.id = b.ownerId ∨ t.alive = false
      · rw [if_pos hcond]
        exact ih _ _ _ _ _
          (allHealthInv_append.mpr ⟨h1, allHealthInv_cons.mpr ⟨ht, allHealthInv_nil⟩⟩)
          hts
      · rw [if_neg hcond]
        have halive : t.alive = true := by
          cases hal : t.alive
          · exact absurd (Or.inr hal) hcond
          · rfl
        by_cases hhit : hitTest b t = true
        · rw [if_pos hhit]
          by_cases hdead : t.health - b.damage ≤ 0
          · rw [if_pos hdead]
            by_cases hbot : t.isBot = true
            · rw [if_pos hbot]
              refine ih _ _ _ _ _ (allHealthInv_append.mpr
                ⟨creditKill_healthInv _ _ h1,
                 allHealthInv_cons.mpr ⟨?_, allHealthInv_nil⟩⟩)
                (creditKill_healthInv _ _ hts)
              refine ⟨(by decide : (0 : Int) ≤ maxHealth), le_refl maxHealth, ?_⟩
              intro hco
              have hco2 : true = false := hco
              exact Bool.noConfusion hco2
            · rw [if_neg hbot]
              refine ih _ _ _ _ _ (allHealthInv_append.mpr
                ⟨creditKill_healthInv _ _ h1,
                 allHealthInv_cons.mpr ⟨?_, allHealthInv_nil⟩⟩)
                (creditKill_healthInv _ _ hts)
              exact ⟨le_refl 0, (by decide : (0 : Int) ≤ maxHealth), fun _ => rfl⟩
          · rw [if_neg hdead]
            refine ih _ _ _ _ _ (allHealthInv_append.mpr
              ⟨h1, allHealthInv_cons.mpr ⟨?_, allHealthInv_nil⟩⟩) hts
            refine ⟨(show (0 : Int) ≤ t.health - b.damage by omega), ?_, ?_⟩
            · have hub := ht.2.1
              exact (show t.health - b.damage ≤ maxHealth by omega)
            · intro hco
              have hco2 : t.alive = false := hco
              rw [halive] at hco2
              exact Bool.noConfusion hco2
        · rw [if_neg hhit]
          exact ih _ _ _ _ _
            (allHealthInv_append.mpr ⟨h1, allHealthInv_cons.mpr ⟨ht, allHealthInv_nil⟩⟩)
            hts

theorem updateBullet_healthInv (now : Int) (rand : Nat → K × K)
    (es : List (Entity K)) (b : Bullet K) (rc : Nat)
    (hd : 0 ≤ b.damage) (he : allHealthInv es) :
    allHealthInv (updateBullet now rand es b rc).1 := by
  simp only [updateBullet, processTargets]
  split
  · exact he
  · exact processTargetsF_healthInv
      { b with x := b.x + b.vx, y := b.y + b.vy } rand hd es.length [] es [] rc
      true allHealthInv_nil he

/-- Claim C2 counterexample: a client-reported elimination marks the
sender dead but never touches its health, so an entity can be dead with
health 100, contradicting the alive-iff-health-zero invariant. -/
theorem eliminated_dead_with_nonzero_health :
    (getPlayer (handlePlayerEliminated
        [mkHuman 0 (500 : ℤ) 500, mkHuman 1 110 100] 1 0).1 1).map
      (fun e => (e.alive, e.health)) = some (false, 100) ∧
    (100 : Int) ≠ 0 := by
  decide

/-- Claim C2 (amended): through the Combat Resolver, health stays within
[0, maxHealth] and every dead entity has health 0 (a killed bot is revived
in place at maxHealth); the client-reported elimination path however sets
alive to false without zeroing health. -/
theorem updateBullets_preserves_healthInv (now : Int) (rand : Nat → K × K)
    (bs : List (Bullet K)) :
    ∀ (es : List (Entity K)) (rc : Nat),
      (∀ b ∈ bs, 0 ≤ b.damage) → allHealthInv es →
      allHealthInv (updateBullets now rand es bs rc).1 := by
  induction bs with
  | nil =>
    intro es rc _ he
    exact he
  | cons b bs ih =>
    intro es rc hd he
    simp only [updateBullets]
    exact ih _ _ (fun b2 h2 => hd b2 (List.mem_cons_of_mem b h2))
      (updateBullet_healthInv now rand es b rc (hd b (List.mem_cons_self b bs)) he)

theorem updateBullets_preserves_healthInv_witness :
    allHealthInv (updateBullets 100 (fun _ => ((0 : ℤ), 0))
      [mkHuman 0 500 500, mkHuman 1 110 100, { mkHuman 2 130 100 with health := 5 }]
      [mkBullet 7 90 100 10 0] 0).1 :=
  updateBullets_preserves_healthInv 100 (fun _ => ((0 : ℤ), 0))
    [mkBullet 7 90 100 10 0]
    [mkHuman 0 500 500, mkHuman 1 110 100, { mkHuman 2 130 100 with health := 5 }]
    0 (by decide) (by decide)

/-- Claim C1: refuted by the code: the collision forEach has no early
exit, so a projectile overlapping two qualifying targets damages both and
broadcasts bulletRemoved twice in one Combat Resolver pass. -/
theorem updateBullets_double_removal :
    (updateBullets 100 (fun _ => ((0 : ℤ), 0))
      [mkHuman 0 500 500, mkHuman 1 110 100, mkHuman 2 100 110]
      [mkBullet 7 90 100 10 0] 0).2.2.1 =
      [⟨Audience.allSessions, Event.playerHit 1 10 90 0⟩,
       ⟨Audience.allSessions, Event.bulletRemoved 7⟩,
       ⟨Audience.allSessions, Event.playerHit 2 10 90 0⟩,
       ⟨Audience.allSessions, Event.bulletRemoved 7⟩] ∧
    ((updateBullets 100 (fun _ => ((0 : ℤ), 0))
      [mkHuman 0 500 500, mkHuman 1 110 100, mkHuman 2 100 110]
      [mkBullet 7 90 100 10 0] 0).2.2.1.countP
        (fun em => em.ev == Event.bulletRemoved 7)) = 2 ∧
    (∀ e ∈ (updateBullets 100 (fun _ => ((0 : ℤ), 0))
      [mkHuman 0 500 500, mkHuman 1 110 100, mkHuman 2 100 110]
      [mkBullet 7 90 100 10 0] 0).1, e.id ≠ 0 → e.health = 90) := by
  decide

end Claims

end EchoSonar
